import Mathlib

/-!
# Verification of the Avail settlement consensus bridge

A shallow embedding of the core of the `availproject-op-evm` repository:

* `FromAvail` (src/pkg/block/block.go): extraction of settlement ("edge")
  blocks embedded in a DA (data-availability) chain block's extrinsics;
* the syncer (src/consensus/avail/syncer.go): `getNextAvailBlockNumber`,
  `syncFunc`, and the control flow of `syncNode`'s main loop;
* the staking state machine (src/unnamed/part_000): the `ensureStaked`
  background loop, `stakeParticipantThroughTxPool`'s bounded submission
  retry and its post-submission poll.

External collaborators (DA client RPC, decoders from the substrate codec
library, the fraud resolver's verdict, the validator's verdict, the
transaction pool, the participant querier) are out of scope per the spec
and are modelled as explicit oracle parameters; the control flow around
them is translated from the Go source.  Go's `(value, error)` returns are
modelled with `Except`/`Option`; byte strings are `List Nat`; opaque error
values are `Nat` codes.
-/

namespace AvailSettlement

/-- Decidable equality for `Except`, used to evaluate Go-style
`(value, error)` results on closed inputs. -/
instance {ε α : Type} [DecidableEq ε] [DecidableEq α] :
    DecidableEq (Except ε α) := fun a b =>
  match a, b with
  | .error e1, .error e2 =>
    if h : e1 = e2 then .isTrue (by rw [h]) else .isFalse (by simp [h])
  | .error _, .ok _ => .isFalse (by simp)
  | .ok _, .error _ => .isFalse (by simp)
  | .ok v1, .ok v2 =>
    if h : v1 = v2 then .isTrue (by rw [h]) else .isFalse (by simp [h])

/-- Raw byte sequences (Go `[]byte`, `avail_types.Bytes`). -/
abbrev ByteSeq := List Nat

/-- `avail_types.CallIndex`: a pair of section and method index. -/
structure CallIndex where
  sectionIndex : Nat
  methodIndex : Nat
  deriving DecidableEq

/-- A DA-chain extrinsic: its signature's application id (`Signature.AppID`,
an integer compared via `Int64()`), its method call-index
(`Method.CallIndex`) and its opaque argument bytes (`Method.Args`). -/
structure Extrinsic where
  appID : Int
  callIndex : CallIndex
  args : ByteSeq
  deriving DecidableEq

/-- `avail.Blob`: the payload wrapper decoded from an extrinsic's argument
bytes; its `Data` field holds an RLP-encoded settlement block. -/
structure Blob where
  data : ByteSeq
  deriving DecidableEq

/-- Header of a settlement (edge) block: number, hash, parent hash. -/
structure EdgeHeader where
  number : Nat
  hash : Nat
  parentHash : Nat
  deriving DecidableEq

/-- A settlement (polygon-edge) block: header plus transaction list
(transactions kept opaque). -/
structure EdgeBlock where
  header : EdgeHeader
  transactions : List Nat
  deriving DecidableEq

/-- Header of a DA-chain block: just its number matters here. -/
structure DAHeader where
  number : Nat
  deriving DecidableEq

/-- `avail_types.SignedBlock`: a DA-chain block, i.e. a header and an
ordered list of extrinsics. -/
structure SignedBlock where
  header : DAHeader
  extrinsics : List Extrinsic
  deriving DecidableEq

/-- The three decoding stages used by `FromAvail`, all implemented by
external libraries (substrate codec, scale, polygon-edge RLP), modelled as
oracle functions.  `none` / `.error` is the library returning a non-nil Go
error. -/
structure Codecs where
  decodeBytes : ByteSeq → Option ByteSeq
  decodeBlob : ByteSeq → Option Blob
  unmarshalRLP : ByteSeq → Except Nat EdgeBlock

/-- The error component of `FromAvail`'s Go result: either the
distinguished `ErrNoExtrinsicFound`, or the RLP decode error surfaced from
`blk.UnmarshalRLP`. -/
inductive FromAvailErr where
  | noExtrinsicFound
  | rlpErr (e : Nat)
  deriving DecidableEq

/-- The loop of `FromAvail` (src/pkg/block/block.go lines 31-71), with the
accumulator `acc` playing `toReturn`.  Go returns the pair `(blocks, err)`
where exactly one side is nil, so the result is an `Except`: `.error`
corresponds to a `nil` block slice together with a non-nil error. -/
def fromAvailGo (c : Codecs) (appID : Int) (callIdx : CallIndex) :
    List Extrinsic → List EdgeBlock → Except FromAvailErr (List EdgeBlock)
  | [], acc => if acc.length = 0 then .error .noExtrinsicFound else .ok acc
  | ext :: rest, acc =>
    if ext.appID ≠ appID then
      fromAvailGo c appID callIdx rest acc
    else if ext.callIndex ≠ callIdx then
      fromAvailGo c appID callIdx rest acc
    else
      match c.decodeBytes ext.args with
      | none => fromAvailGo c appID callIdx rest acc
      | some bs =>
        match c.decodeBlob bs with
        | none => fromAvailGo c appID callIdx rest acc
        | some blob =>
          match c.unmarshalRLP blob.data with
          | .error e => .error (.rlpErr e)
          | .ok blk => fromAvailGo c appID callIdx rest (acc ++ [blk])

/-- `FromAvail` (src/pkg/block/block.go): convert a DA block into the list
of settlement blocks embedded in its extrinsics. -/
def FromAvail (c : Codecs) (availBlk : SignedBlock) (appID : Int)
    (callIdx : CallIndex) : Except FromAvailErr (List EdgeBlock) :=
  fromAvailGo c appID callIdx availBlk.extrinsics []

/-- What `FromAvail`'s loop body does with a single extrinsic: skip it
(identifier or call-index mismatch, or outer bytes / Blob decode failure),
decode a settlement block from it, or fail fatally (RLP decode error of the
Blob's `Data`). -/
inductive ExtOutcome where
  | skipped
  | decoded (b : EdgeBlock)
  | fatal (e : Nat)
  deriving DecidableEq

/-- The per-extrinsic outcome, mirroring the branch structure of
`FromAvail`'s loop body. -/
def extOutcome (c : Codecs) (appID : Int) (callIdx : CallIndex)
    (ext : Extrinsic) : ExtOutcome :=
  if ext.appID ≠ appID then .skipped
  else if ext.callIndex ≠ callIdx then .skipped
  else
    match c.decodeBytes ext.args with
    | none => .skipped
    | some bs =>
      match c.decodeBlob bs with
      | none => .skipped
      | some blob =>
        match c.unmarshalRLP blob.data with
        | .error e => .fatal e
        | .ok blk => .decoded blk

/-- Whether an outcome is the fatal (RLP failure) one. -/
def ExtOutcome.isFatal : ExtOutcome → Bool
  | .fatal _ => true
  | _ => false

/-- The block produced by an extrinsic, if any. -/
def ExtOutcome.block : ExtOutcome → Option EdgeBlock
  | .decoded b => some b
  | _ => none

/-- The successfully decoded settlement blocks of an extrinsic list, in
original extrinsic order. -/
def decodedBlocks (c : Codecs) (appID : Int) (callIdx : CallIndex)
    (exts : List Extrinsic) : List EdgeBlock :=
  exts.filterMap (fun ext => (extOutcome c appID callIdx ext).block)

/-! ### Concrete fixtures

Concrete codecs and extrinsics used to evaluate the definitions on closed
inputs.  Byte string `[0]` fails the outer bytes decode, `[1]` fails the
Blob decode, `[2]` fails the RLP decode with error code 42; any other byte
string decodes to a settlement block whose number is its first byte. -/

/-- Concrete decoding oracles for closed evaluation. -/
def demoCodecs : Codecs where
  decodeBytes := fun bs => if bs = [0] then none else some bs
  decodeBlob := fun bs => if bs = [1] then none else some ⟨bs⟩
  unmarshalRLP := fun bs =>
    if bs = [2] then .error 42 else .ok ⟨⟨bs.headD 0, 0, 0⟩, []⟩

/-- The target call-index of the fixtures. -/
def demoCallIdx : CallIndex := ⟨29, 1⟩

/-- A call-index different from the target. -/
def demoOtherCallIdx : CallIndex := ⟨4, 0⟩

/-- An extrinsic matching app-id 1 and the target call-index whose payload
decodes to the settlement block numbered `n`. -/
def extGood (n : Nat) : Extrinsic := ⟨1, demoCallIdx, [n]⟩

/-- An extrinsic with a mismatched application id. -/
def extWrongApp : Extrinsic := ⟨2, demoCallIdx, [7]⟩

/-- An extrinsic with a mismatched call-index. -/
def extWrongCall : Extrinsic := ⟨1, demoOtherCallIdx, [7]⟩

/-- A matching extrinsic whose outer bytes decode fails. -/
def extBadBytes : Extrinsic := ⟨1, demoCallIdx, [0]⟩

/-- A matching extrinsic whose Blob decode fails. -/
def extBadBlob : Extrinsic := ⟨1, demoCallIdx, [1]⟩

/-- A matching extrinsic whose settlement-block (RLP) decode fails. -/
def extBadRLP : Extrinsic := ⟨1, demoCallIdx, [2]⟩

/-- DA block mixing decodable, mismatched and skippably-failing
extrinsics. -/
def demoBlockMixed : SignedBlock :=
  ⟨⟨10⟩, [extGood 5, extWrongApp, extBadBytes, extGood 6, extBadBlob,
    extWrongCall]⟩

/-- DA block whose third extrinsic fails the settlement-block decode after
an earlier extrinsic already decoded. -/
def demoBlockFatal : SignedBlock :=
  ⟨⟨11⟩, [extGood 5, extWrongApp, extBadRLP, extGood 6]⟩

/-- DA block in which every extrinsic is skipped. -/
def demoBlockEmpty : SignedBlock :=
  ⟨⟨12⟩, [extWrongApp, extBadBytes, extBadBlob, extWrongCall]⟩

/-! ### Syncer (src/consensus/avail/syncer.go) -/

/-- `syncFunc` (syncer.go lines 110-127): the search predicate handed to
the DA client's `SearchBlock`.  Go returns `(int, bool, error)`; the error
side is modelled as `.error`.  It forwards any `FromAvail` error other
than `ErrNoExtrinsicFound`, reports no match when nothing decoded, and
reports a match at the DA block's own number when some decoded settlement
block's number equals the target. -/
def syncFunc (c : Codecs) (appID : Int) (availBlk : SignedBlock)
    (targetEdgeBlock : Nat) (callIdx : CallIndex) :
    Except FromAvailErr (Int × Bool) :=
  match FromAvail c availBlk appID callIdx with
  | .error e =>
    if e ≠ .noExtrinsicFound then .error e else .ok (-1, false)
  | .ok blks =>
    if blks.length < 1 then .ok (-1, false)
    else if blks.any (fun b => b.header.number = targetEdgeBlock) then
      .ok (Int.ofNat availBlk.header.number, true)
    else .ok (-1, false)

/-- Modelled from the spec: `SearchBlock(from, to, predicate)` of the DA
client (`pkg/avail`, whose source is not under src/).  Per spec §4.3/§6
the search strategy is an external capability and only the predicate is
part of this core: the DA chain's searched range is modelled as an
explicit history list scanned in order; the search returns the first
block the predicate reports a match on, the predicate's error if it
errors, and a not-found failure (`.error none`) if the scan ends without
a match. -/
def SearchBlock (history : List SignedBlock)
    (pred : SignedBlock → Except FromAvailErr (Int × Bool)) :
    Except (Option FromAvailErr) SignedBlock :=
  match history with
  | [] => .error none
  | b :: rest =>
    match pred b with
    | .error e => .error (some e)
    | .ok (_, true) => .ok b
    | .ok (_, false) => SearchBlock rest pred

/-- `getNextAvailBlockNumber` (syncer.go lines 10-25): 1 when the local
chain head is at genesis (number 0), otherwise the number of the DA block
found by searching DA history with the `syncFunc` predicate targeting the
head's number; 0 when the search errors (the failure is only logged). -/
def getNextAvailBlockNumber (c : Codecs) (appID : Int) (callIdx : CallIndex)
    (headNumber : Nat) (history : List SignedBlock) : Nat :=
  if headNumber = 0 then 1
  else
    match SearchBlock history
        (fun b => syncFunc c appID b headNumber callIdx) with
    | .error _ => 0
    | .ok blk => blk.header.number

/-- Observable actions of `syncNode`'s main loop. -/
inductive SyncEvent where
  | validatorChecked (b : EdgeBlock)
  | blockWritten (b : EdgeBlock)
  | unstakeAttempted
  | unstakeFailureLogged
  | daBlockProcessed (n : Nat)
  deriving DecidableEq

/-- The external verdicts consulted by `syncNode`'s loop: the fraud
resolver's `IsFraudProofBlock`, the validator's `Check` (`none` = nil
error) and the result of `stakingNode.UnStake` (`none` = success). -/
structure SyncOracles where
  isFraudProofBlock : EdgeBlock → Bool
  validatorCheck : EdgeBlock → Option Nat
  unStakeErr : Option Nat

/-- The body of `syncNode`'s inner for-loop (syncer.go lines 73-96) for
one extracted settlement block: a fraud-flagged block is dropped without
consulting the validator; otherwise the validator runs and only a nil
validation error leads to the `WriteBlock` call (whose own error is only
logged and does not change control flow, so the event records the commit
call). -/
def processEdgeBlock (o : SyncOracles) (b : EdgeBlock) : List SyncEvent :=
  if o.isFraudProofBlock b then []
  else
    match o.validatorCheck b with
    | none => [.validatorChecked b, .blockWritten b]
    | some _ => [.validatorChecked b]

/-- The inner for-loop over all extracted settlement blocks, in extraction
order. -/
def processEdgeBlocks (o : SyncOracles) (blks : List EdgeBlock) :
    List SyncEvent :=
  (blks.map (processEdgeBlock o)).flatten

/-- What the `select` of `syncNode`'s loop received: a DA block from the
stream, or the shutdown signal on `closeCh`. -/
inductive LoopSignal where
  | newBlock (blk : SignedBlock)
  | shutdown
  deriving DecidableEq

/-- How one iteration of `syncNode`'s loop ends: return from `syncNode`
with cursor `ret` (the returned error is nil on both return paths of the
loop), continue with a possibly advanced cursor, or break out (caught up
with the DA head). -/
inductive IterResult where
  | exitLoop (ret : Nat)
  | continueLoop (cursor : Nat)
  | breakLoop (cursor : Nat)
  deriving DecidableEq

/-- One iteration of `syncNode`'s main loop (syncer.go lines 49-104).
`cursor` is the current `availNextBlockNumber`, `hdrNumber` the DA head
number fetched before the loop.  On shutdown: one `UnStake` attempt; on
failure it is logged and `syncNode` returns `(cursor, nil)`; on success
it returns `(0, nil)`.  On a new DA block: `FromAvail` runs; an
unexpected extraction error is logged and the iteration continues without
touching the cursor; otherwise each extracted block goes through the
fraud gate / validator / commit body, the cursor advances to the DA
block's number (`daBlockProcessed`), and the loop breaks when that number
equals the DA head's. -/
def syncIter (o : SyncOracles) (c : Codecs) (appID : Int)
    (callIdx : CallIndex) (hdrNumber cursor : Nat) (sig : LoopSignal) :
    List SyncEvent × IterResult :=
  match sig with
  | .shutdown =>
    match o.unStakeErr with
    | some _ =>
      ([.unstakeAttempted, .unstakeFailureLogged], .exitLoop cursor)
    | none => ([.unstakeAttempted], .exitLoop 0)
  | .newBlock blk =>
    match FromAvail c blk appID callIdx with
    | .error e =>
      if e ≠ .noExtrinsicFound then ([], .continueLoop cursor)
      else
        ([.daBlockProcessed blk.header.number],
          if hdrNumber = blk.header.number then
            .breakLoop blk.header.number
          else .continueLoop blk.header.number)
    | .ok edgeBlks =>
      (processEdgeBlocks o edgeBlks ++
          [.daBlockProcessed blk.header.number],
        if hdrNumber = blk.header.number then .breakLoop blk.header.number
        else .continueLoop blk.header.number)

/-- How `syncNode`'s prelude ends: an early `return` carrying the Go pair
`(cursor, error)`, or entry into the main loop. -/
inductive StartOutcome where
  | earlyReturn (ret : Nat) (err : Option Nat)
  | enterLoop (hdrNumber : Nat) (callIdx : CallIndex) (cursor : Nat)
  deriving DecidableEq

/-- The prelude of `syncNode` (syncer.go lines 27-47): after resolving the
resume cursor, a failure of `GetLatestHeader` is logged and `syncNode`
returns `(0, nil)`; a failure of `FindCallIndex` returns the cursor with
that error; otherwise the main loop is entered.  `.earlyReturn` means the
block stream is never opened, so no DA block is processed in the call. -/
def syncNodeStart (availNextBlockNumber : Nat)
    (latestHeader : Except Nat DAHeader)
    (findCallIndex : Except Nat CallIndex) : StartOutcome :=
  match latestHeader with
  | .error _ => .earlyReturn 0 none
  | .ok hdr =>
    match findCallIndex with
    | .error e => .earlyReturn availNextBlockNumber (some e)
    | .ok ci => .enterLoop hdr.number ci availNextBlockNumber

/-! ### Staking state machine (src/unnamed/part_000) -/

/-- The node roles (`MechanismType`) relevant to `ensureStaked`. -/
inductive MechanismType where
  | bootstrapSequencer
  | sequencer
  | watchTower
  deriving DecidableEq

/-- How one iteration of the `ensureStaked` goroutine loop ends: back off
and retry the checks (sleep of the given seconds), run a staking attempt
and continue looping, or run a staking attempt and return from the
goroutine (loop terminates). -/
inductive StakeIterOutcome where
  | retryAfter (sleepSeconds : Nat)
  | stakeAttemptContinue (returnErr : Option Nat)
  | stakeAttemptTerminate (returnErr : Option Nat)
  deriving DecidableEq

/-- One iteration of the `ensureStaked` goroutine's for-loop
(src/unnamed/part_000 lines 52-94).  `inProbation` and `staked` are the
participant querier's answers this iteration; `stakeDirectErr` the result
of `stakeParticipant` (direct-block path, `none` = success);
`stakePoolResult` the `(staked, err)` pair of
`stakeParticipantThroughTxPool` (pool path).  The bootstrap sequencer
stakes through the direct-block path and always continues looping; the
sequencer and watchtower stake through the pool and return from the
goroutine when the pool path reports success. -/
def ensureStakedIter (role : MechanismType) (inProbation : Except Nat Bool)
    (staked : Except Nat Bool) (stakeDirectErr : Option Nat)
    (stakePoolResult : Bool × Option Nat) : StakeIterOutcome :=
  match inProbation with
  | .error _ => .retryAfter 3
  | .ok true => .retryAfter 5
  | .ok false =>
    match staked with
    | .error _ => .retryAfter 3
    | .ok true => .retryAfter 3
    | .ok false =>
      match role with
      | .bootstrapSequencer => .stakeAttemptContinue stakeDirectErr
      | .sequencer =>
        if stakePoolResult.1 then .stakeAttemptTerminate stakePoolResult.2
        else .stakeAttemptContinue stakePoolResult.2
      | .watchTower =>
        if stakePoolResult.1 then .stakeAttemptTerminate stakePoolResult.2
        else .stakeAttemptContinue stakePoolResult.2

/-- Observable actions of the pool staking path. -/
inductive PoolEvent where
  | addTxAttempt (i : Nat)
  | sleepSeconds (d : Nat)
  deriving DecidableEq

/-- The submission retry loop of `stakeParticipantThroughTxPool`
(src/unnamed/part_000 lines 191-201): `for retries := 0; retries < 10;
retries++`, each iteration calling `AddTx` and, on error, sleeping 2
seconds and continuing; a successful call breaks out.  `fuel` is the
number of remaining iterations (`10 - retries`), `lastErr` the current
value of the loop's `err` variable; `addTx i` is the pool's answer to the
i-th submission. -/
def stakeRetryGoF (addTx : Nat → Option Nat) :
    Nat → Nat → Option Nat → List PoolEvent × Option Nat
  | 0, _, lastErr => ([], lastErr)
  | fuel + 1, retries, _ =>
    match addTx retries with
    | some e =>
      let r := stakeRetryGoF addTx fuel (retries + 1) (some e)
      (.addTxAttempt retries :: .sleepSeconds 2 :: r.1, r.2)
    | none => ([.addTxAttempt retries], none)

/-- The whole submission retry loop, started at `retries = 0` with the
nil `err` it enters with. -/
def stakeRetryLoop (addTx : Nat → Option Nat) : List PoolEvent × Option Nat :=
  stakeRetryGoF addTx 10 0 none

/-- Whether a pool event is an `AddTx` attempt. -/
def isAddTxAttempt : PoolEvent → Bool
  | .addTxAttempt _ => true
  | _ => false

/-- Number of `AddTx` attempts in a pool event trace. -/
def attemptTotal (evs : List PoolEvent) : Nat :=
  (evs.filter isAddTxAttempt).length

/-- The post-submission poll of `stakeParticipantThroughTxPool`
(src/unnamed/part_000 lines 210-219): `for !staked { staked, err =
Contains(...); if err != nil { return false, err }; sleep 3s }` followed
by `return true, nil`.  `results` is the sequence of answers of the
participant querier; `none` means the loop is still polling after
consuming all listed answers. -/
def pollStakedGo : List (Except Nat Bool) → Option (Bool × Option Nat)
  | [] => none
  | r :: rest =>
    match r with
    | .error e => some (false, some e)
    | .ok true => some (true, none)
    | .ok false => pollStakedGo rest

/-- `stakeParticipantThroughTxPool` from the submission retry loop on
(src/unnamed/part_000 lines 191-221): if the bounded retry ends with a
non-nil error the function returns `(false, err)`; after a successful
submission it enters the post-submission poll. -/
def stakeParticipantThroughTxPool (addTx : Nat → Option Nat)
    (pollResults : List (Except Nat Bool)) : Option (Bool × Option Nat) :=
  match (stakeRetryLoop addTx).2 with
  | some e => some (false, some e)
  | none => pollStakedGo pollResults

/-! ### Further fixtures for the syncer and staking models -/

/-- Fraud gate / validator verdicts for closed evaluation: blocks numbered
13 are fraud-flagged, blocks numbered 21 fail validation with error 9,
and the unstake attempt fails with error 3. -/
def demoOracles : SyncOracles where
  isFraudProofBlock := fun b => b.header.number == 13
  validatorCheck := fun b => if b.header.number = 21 then some 9 else none
  unStakeErr := some 3

/-- Same verdicts with a succeeding unstake attempt. -/
def demoOraclesOk : SyncOracles := { demoOracles with unStakeErr := none }

/-- DA block embedding a fraud-flagged block (13), an invalid block (21)
and a good block (5). -/
def demoBlockFiltered : SignedBlock :=
  ⟨⟨20⟩, [extGood 13, extGood 21, extGood 5]⟩

/-- DA history block embedding settlement block 4 (no match for target
5). -/
def demoHistoryBlockA : SignedBlock := ⟨⟨6⟩, [extGood 4]⟩

/-- DA history block embedding settlement blocks 5 and 6 (matches target
5); its DA number is 7. -/
def demoHistoryBlockB : SignedBlock := ⟨⟨7⟩, [extGood 5, extGood 6]⟩

/-- A DA history in which the block embedding settlement block 5 is
`demoHistoryBlockB`, preceded by a no-extrinsic block and a non-matching
block. -/
def demoHistory : List SignedBlock :=
  [demoBlockEmpty, demoHistoryBlockA, demoHistoryBlockB, demoBlockMixed]

/-- A transaction pool rejecting every submission: attempt i fails with
error 100 + i. -/
def demoAddTxFail : Nat → Option Nat := fun i => some (100 + i)

/-- A transaction pool rejecting the first three submissions and then
accepting. -/
def demoAddTxLate : Nat → Option Nat :=
  fun i => if i < 3 then some (100 + i) else none

/-- One step of `FromAvail`'s loop, phrased through `extOutcome`. -/
theorem fromAvailGo_cons (c : Codecs) (appID : Int) (callIdx : CallIndex)
    (ext : Extrinsic) (rest : List Extrinsic) (acc : List EdgeBlock) :
    fromAvailGo c appID callIdx (ext :: rest) acc =
      match extOutcome c appID callIdx ext with
      | .skipped => fromAvailGo c appID callIdx rest acc
      | .decoded b => fromAvailGo c appID callIdx rest (acc ++ [b])
      | .fatal e => .error (.rlpErr e) := by
  simp only [fromAvailGo, extOutcome]
  by_cases h1 : ext.appID ≠ appID
  · simp [h1]
  · by_cases h2 : ext.callIndex ≠ callIdx
    · simp [h1, h2]
    · simp only [h1, h2, if_false]
      cases hbs : c.decodeBytes ext.args with
      | none => rfl
      | some bs =>
        cases hblob : c.decodeBlob bs with
        | none => simp [hblob]
        | some blob =>
          cases hrlp : c.unmarshalRLP blob.data with
          | error e => simp [hblob, hrlp]
          | ok blk => simp [hblob, hrlp]

/-- If no extrinsic in the list is fatal, the loop appends exactly the
decoded blocks, in order, to the accumulator, and errors with
`ErrNoExtrinsicFound` iff the total is empty. -/
theorem fromAvailGo_no_fatal (c : Codecs) (appID : Int) (callIdx : CallIndex)
    (exts : List Extrinsic) (acc : List EdgeBlock)
    (h : ∀ ext ∈ exts, (extOutcome c appID callIdx ext).isFatal = false) :
    fromAvailGo c appID callIdx exts acc =
      (if (acc ++ decodedBlocks c appID callIdx exts).length = 0
        then .error .noExtrinsicFound
        else .ok (acc ++ decodedBlocks c appID callIdx exts)) := by
  induction exts generalizing acc with
  | nil => simp [fromAvailGo, decodedBlocks]
  | cons ext rest ih =>
    have hext := h ext (List.mem_cons_self ext rest)
    have hrest : ∀ x ∈ rest, (extOutcome c appID callIdx x).isFatal = false :=
      fun x hx => h x (List.mem_cons_of_mem ext hx)
    rw [fromAvailGo_cons]
    cases ho : extOutcome c appID callIdx ext with
    | skipped =>
      simp only [ih acc hrest, decodedBlocks, List.filterMap_cons, ho,
        ExtOutcome.block]
    | decoded b =>
      simp only [ih (acc ++ [b]) hrest, decodedBlocks, List.filterMap_cons,
        ho, ExtOutcome.block, List.append_assoc, List.singleton_append]
    | fatal e => rw [ho] at hext; simp [ExtOutcome.isFatal] at hext

/-- If every extrinsic before `ext` is non-fatal and `ext` is fatal with
error `e`, the loop aborts at `ext` with exactly that RLP error, whatever
was accumulated before and whatever follows. -/
theorem fromAvailGo_fatal (c : Codecs) (appID : Int) (callIdx : CallIndex)
    (pre : List Extrinsic) (ext : Extrinsic) (post : List Extrinsic)
    (acc : List EdgeBlock) (e : Nat)
    (hpre : ∀ x ∈ pre, (extOutcome c appID callIdx x).isFatal = false)
    (hext : extOutcome c appID callIdx ext = .fatal e) :
    fromAvailGo c appID callIdx (pre ++ ext :: post) acc =
      .error (.rlpErr e) := by
  induction pre generalizing acc with
  | nil => rw [List.nil_append, fromAvailGo_cons, hext]
  | cons x rest ih =>
    have hx := hpre x (List.mem_cons_self x rest)
    have hrest : ∀ y ∈ rest, (extOutcome c appID callIdx y).isFatal = false :=
      fun y hy => hpre y (List.mem_cons_of_mem x hy)
    rw [List.cons_append, fromAvailGo_cons]
    cases ho : extOutcome c appID callIdx x with
    | skipped => exact ih acc hrest
    | decoded b => exact ih (acc ++ [b]) hrest
    | fatal e2 => rw [ho] at hx; simp [ExtOutcome.isFatal] at hx

/-- Claim C2: for a DA block whose extrinsics all either decode
successfully through the bytes, Blob and settlement-block stages or are
skipped (app-id or call-index mismatch, or outer bytes / Blob decode
failure, i.e. no extrinsic is fatal), and at least one decodes, `FromAvail`
returns exactly the successfully decoded settlement blocks in the original
extrinsic order (`decodedBlocks` is an order-preserving `filterMap` over
the extrinsic list); the skipped extrinsics do not affect the result. -/
theorem fromAvail_returns_decoded_blocks_in_order (c : Codecs)
    (availBlk : SignedBlock) (appID : Int) (callIdx : CallIndex)
    (hnf : ∀ ext ∈ availBlk.extrinsics,
      (extOutcome c appID callIdx ext).isFatal = false)
    (hne : decodedBlocks c appID callIdx availBlk.extrinsics ≠ []) :
    FromAvail c availBlk appID callIdx =
      .ok (decodedBlocks c appID callIdx availBlk.extrinsics) := by
  rw [FromAvail, fromAvailGo_no_fatal c appID callIdx availBlk.extrinsics [] hnf]
  simp only [List.nil_append, List.length_eq_zero]
  simp [hne]

/-- Witness for C2: on the mixed fixture block, the two decodable
extrinsics (numbers 5 and 6) yield exactly two settlement blocks in
extrinsic order; the four skipped extrinsics leave no trace. -/
theorem fromAvail_returns_decoded_blocks_in_order_witness :
    FromAvail demoCodecs demoBlockMixed 1 demoCallIdx =
        .ok (decodedBlocks demoCodecs 1 demoCallIdx demoBlockMixed.extrinsics) ∧
      decodedBlocks demoCodecs 1 demoCallIdx demoBlockMixed.extrinsics =
        [⟨⟨5, 0, 0⟩, []⟩, ⟨⟨6, 0, 0⟩, []⟩] :=
  ⟨fromAvail_returns_decoded_blocks_in_order demoCodecs demoBlockMixed 1
    demoCallIdx (by decide) (by decide), by decide⟩

/-- Claim C3: if a matching extrinsic passes the outer bytes and Blob
decodes but its Blob `Data` fails to decode as a settlement block (a fatal
outcome with RLP error `e`), and every earlier extrinsic is non-fatal
(possibly already decoded), then `FromAvail` aborts at that extrinsic and
returns exactly that error — the `.error` result is the Go pair
`(nil, err)`, so no partial list is returned, and the extrinsics after the
fatal one are never examined (the conclusion holds for every `post`). -/
theorem fromAvail_fatal_decode_aborts_call (c : Codecs)
    (availBlk : SignedBlock) (appID : Int) (callIdx : CallIndex)
    (pre : List Extrinsic) (ext : Extrinsic) (post : List Extrinsic) (e : Nat)
    (hsplit : availBlk.extrinsics = pre ++ ext :: post)
    (hpre : ∀ x ∈ pre, (extOutcome c appID callIdx x).isFatal = false)
    (hext : extOutcome c appID callIdx ext = .fatal e) :
    FromAvail c availBlk appID callIdx = .error (.rlpErr e) := by
  rw [FromAvail, hsplit]
  exact fromAvailGo_fatal c appID callIdx pre ext post [] e hpre hext

/-- Witness for C3: on the fixture block whose third extrinsic fails the
settlement-block decode, the whole call returns that decode error even
though the first extrinsic had already decoded. -/
theorem fromAvail_fatal_decode_aborts_call_witness :
    FromAvail demoCodecs demoBlockFatal 1 demoCallIdx =
      .error (.rlpErr 42) :=
  fromAvail_fatal_decode_aborts_call demoCodecs demoBlockFatal 1 demoCallIdx
    [extGood 5, extWrongApp] extBadRLP [extGood 6] 42 (by decide) (by decide)
    (by decide)

/-- Claim C4: if every extrinsic of the DA block is skipped — app-id or
call-index mismatch, or a failing outer bytes or Blob decode — then
`FromAvail` returns the distinguished `ErrNoExtrinsicFound` (with a nil
result, encoded by `.error`), never a generic error. -/
theorem fromAvail_no_match_yields_distinguished_error (c : Codecs)
    (availBlk : SignedBlock) (appID : Int) (callIdx : CallIndex)
    (h : ∀ ext ∈ availBlk.extrinsics,
      extOutcome c appID callIdx ext = .skipped) :
    FromAvail c availBlk appID callIdx = .error .noExtrinsicFound := by
  have hnf : ∀ ext ∈ availBlk.extrinsics,
      (extOutcome c appID callIdx ext).isFatal = false := by
    intro x hx
    rw [h x hx]
    rfl
  have hdec : decodedBlocks c appID callIdx availBlk.extrinsics = [] := by
    rw [decodedBlocks, List.filterMap_eq_nil_iff]
    intro x hx
    rw [h x hx]
    rfl
  rw [FromAvail, fromAvailGo_no_fatal c appID callIdx availBlk.extrinsics [] hnf,
    hdec]
  simp

/-- Witness for C4: on the fixture block whose four extrinsics are all
skipped (one app mismatch, one call-index mismatch, one bytes-decode
failure, one Blob-decode failure), `FromAvail` returns
`ErrNoExtrinsicFound`. -/
theorem fromAvail_no_match_yields_distinguished_error_witness :
    FromAvail demoCodecs demoBlockEmpty 1 demoCallIdx =
      .error .noExtrinsicFound :=
  fromAvail_no_match_yields_distinguished_error demoCodecs demoBlockEmpty 1
    demoCallIdx (by decide)

/-- Blocks on which the predicate reports "no match, no error" are scanned
past by the search. -/
theorem SearchBlock_skip
    (pred : SignedBlock → Except FromAvailErr (Int × Bool))
    (pre rest : List SignedBlock)
    (h : ∀ b ∈ pre, ∃ x, pred b = .ok (x, false)) :
    SearchBlock (pre ++ rest) pred = SearchBlock rest pred := by
  induction pre with
  | nil => rfl
  | cons b bs ih =>
    obtain ⟨x, hx⟩ := h b (List.mem_cons_self b bs)
    rw [List.cons_append]
    simp only [SearchBlock, hx]
    exact ih (fun y hy => h y (List.mem_cons_of_mem b hy))

/-- `syncFunc` reports a match at the DA block's own number when some
decoded settlement block's number equals the target. -/
theorem syncFunc_match (c : Codecs) (appID : Int) (availBlk : SignedBlock)
    (M : Nat) (callIdx : CallIndex) (blks : List EdgeBlock) (sb : EdgeBlock)
    (hok : FromAvail c availBlk appID callIdx = .ok blks)
    (hmem : sb ∈ blks) (hnum : sb.header.number = M) :
    syncFunc c appID availBlk M callIdx =
      .ok (Int.ofNat availBlk.header.number, true) := by
  rw [syncFunc, hok]
  have hlen : ¬ blks.length < 1 := by
    cases blks with
    | nil => simp at hmem
    | cons hd tl => simp
  have hany : blks.any (fun b => b.header.number = M) = true := by
    rw [List.any_eq_true]
    exact ⟨sb, hmem, by simp [hnum]⟩
  simp [hlen, hany]

/-- Claim C5: `getNextAvailBlockNumber` returns 1 at a genesis-height
local head for every DA history (the history is not consulted); for a
local head at settlement number M ≠ 0 whose DA history reaches, past
blocks the predicate does not match, a DA block B among whose decoded
settlement blocks one has number M, it returns B's DA block number; if
the DA search errors it returns 0.  The `syncFunc` predicate reports a
match exactly when some decoded settlement block's number equals the
target, and reports no match, without error, on the distinguished
no-extrinsic-found result. -/
theorem getNextAvailBlockNumber_spec (c : Codecs) (appID : Int)
    (callIdx : CallIndex) :
    (∀ history, getNextAvailBlockNumber c appID callIdx 0 history = 1) ∧
    (∀ M pre B post blks sb, M ≠ 0 →
      (∀ b ∈ pre, syncFunc c appID b M callIdx = .ok (-1, false)) →
      FromAvail c B appID callIdx = .ok blks → sb ∈ blks →
      sb.header.number = M →
      getNextAvailBlockNumber c appID callIdx M (pre ++ B :: post) =
        B.header.number) ∧
    (∀ M history err, M ≠ 0 →
      SearchBlock history (fun b => syncFunc c appID b M callIdx) =
        .error err →
      getNextAvailBlockNumber c appID callIdx M history = 0) ∧
    (∀ availBlk M,
      FromAvail c availBlk appID callIdx = .error .noExtrinsicFound →
      syncFunc c appID availBlk M callIdx = .ok (-1, false)) ∧
    (∀ availBlk M blks, FromAvail c availBlk appID callIdx = .ok blks →
      (syncFunc c appID availBlk M callIdx =
          .ok (Int.ofNat availBlk.header.number, true) ↔
        ∃ sb ∈ blks, sb.header.number = M)) := by
  refine ⟨?_, ?_, ?_, ?_, ?_⟩
  · intro history
    simp [getNextAvailBlockNumber]
  · intro M pre B post blks sb hM hpre hok hmem hnum
    simp only [getNextAvailBlockNumber, if_neg hM]
    rw [SearchBlock_skip _ pre (B :: post) (fun b hb => ⟨-1, hpre b hb⟩)]
    simp only [SearchBlock,
      syncFunc_match c appID B M callIdx blks sb hok hmem hnum]
  · intro M history err hM hsearch
    simp only [getNextAvailBlockNumber, if_neg hM, hsearch]
  · intro availBlk M h
    rw [syncFunc, h]
    simp
  · intro availBlk M blks hok
    constructor
    · intro h
      rw [syncFunc, hok] at h
      by_cases hlen : blks.length < 1
      · simp [hlen] at h
      · cases hany : blks.any (fun b => b.header.number = M) with
        | true =>
          obtain ⟨sb, hmem, hnum⟩ := List.any_eq_true.1 hany
          exact ⟨sb, hmem, by simpa using hnum⟩
        | false =>
          simp [hlen, hany] at h
    · rintro ⟨sb, hmem, hnum⟩
      exact syncFunc_match c appID availBlk M callIdx blks sb hok hmem hnum

/-- Witness for C5: at genesis head the result is 1; for head 5 the
history block embedding settlement block 5 is `demoHistoryBlockB` with DA
number 7, and that is the result; a history whose first block fails the
settlement decode makes the search error and the result is 0; a
no-extrinsic DA block makes the predicate report no match without
error. -/
theorem getNextAvailBlockNumber_spec_witness :
    getNextAvailBlockNumber demoCodecs 1 demoCallIdx 0 demoHistory = 1 ∧
    getNextAvailBlockNumber demoCodecs 1 demoCallIdx 5 demoHistory = 7 ∧
    getNextAvailBlockNumber demoCodecs 1 demoCallIdx 5 [demoBlockFatal] = 0 ∧
    syncFunc demoCodecs 1 demoBlockEmpty 5 demoCallIdx = .ok (-1, false) := by
  obtain ⟨h1, h2, h3, h4, _⟩ := getNextAvailBlockNumber_spec demoCodecs 1
    demoCallIdx
  refine ⟨h1 demoHistory, ?_, ?_, h4 demoBlockEmpty 5 (by decide)⟩
  · exact h2 5 [demoBlockEmpty, demoHistoryBlockA] demoHistoryBlockB
      [demoBlockMixed] [⟨⟨5, 0, 0⟩, []⟩, ⟨⟨6, 0, 0⟩, []⟩] ⟨⟨5, 0, 0⟩, []⟩
      (by decide) (by decide) (by decide) (by decide) (by decide)
  · exact h3 5 [demoBlockFatal] (some (.rlpErr 42)) (by decide) (by decide)

/-- A `WriteBlock` call on block `b` in the inner loop's body implies the
fraud gate cleared `b` and the validator accepted it. -/
theorem blockWritten_mem_processEdgeBlock (o : SyncOracles)
    (b x : EdgeBlock) (h : SyncEvent.blockWritten b ∈ processEdgeBlock o x) :
    o.isFraudProofBlock b = false ∧ o.validatorCheck b = none := by
  unfold processEdgeBlock at h
  by_cases hf : o.isFraudProofBlock x = true
  · simp [hf] at h
  · rw [if_neg hf] at h
    cases hc : o.validatorCheck x with
    | none =>
      rw [hc] at h
      simp only [List.mem_cons, List.not_mem_nil, or_false] at h
      rcases h with h | h
      · exact absurd h (by simp)
      · obtain rfl : b = x := by
          cases h
          rfl
        exact ⟨Bool.not_eq_true _ ▸ Bool.eq_false_iff.mpr hf, hc⟩
    | some e =>
      rw [hc] at h
      simp at h

/-- A validator `Check` call on block `b` in the inner loop's body implies
the fraud gate cleared `b`. -/
theorem validatorChecked_mem_processEdgeBlock (o : SyncOracles)
    (b x : EdgeBlock)
    (h : SyncEvent.validatorChecked b ∈ processEdgeBlock o x) :
    o.isFraudProofBlock b = false := by
  unfold processEdgeBlock at h
  by_cases hf : o.isFraudProofBlock x = true
  · simp [hf] at h
  · rw [if_neg hf] at h
    cases hc : o.validatorCheck x with
    | none =>
      rw [hc] at h
      simp only [List.mem_cons, List.not_mem_nil, or_false] at h
      rcases h with h | h
      · obtain rfl : b = x := by
          cases h
          rfl
        exact Bool.eq_false_iff.mpr hf
      · exact absurd h (by simp)
    | some e =>
      rw [hc] at h
      simp only [List.mem_cons, List.not_mem_nil, or_false] at h
      obtain rfl : b = x := by
        cases h
        rfl
      exact Bool.eq_false_iff.mpr hf

/-- Membership in the inner loop's event trace comes from some extracted
block's body events. -/
theorem mem_processEdgeBlocks (o : SyncOracles) (ev : SyncEvent)
    (blks : List EdgeBlock) :
    ev ∈ processEdgeBlocks o blks ↔
      ∃ x ∈ blks, ev ∈ processEdgeBlock o x := by
  simp only [processEdgeBlocks, List.mem_flatten, List.mem_map]
  constructor
  · rintro ⟨l, ⟨x, hx, rfl⟩, hev⟩
    exact ⟨x, hx, hev⟩
  · rintro ⟨x, hx, hev⟩
    exact ⟨processEdgeBlock o x, ⟨x, hx, rfl⟩, hev⟩

/-- Events of a new-DA-block iteration are either the cursor advance or
body events of some extracted settlement block. -/
theorem mem_syncIter_newBlock (o : SyncOracles) (c : Codecs) (appID : Int)
    (callIdx : CallIndex) (hdrNumber cursor : Nat) (blk : SignedBlock)
    (ev : SyncEvent)
    (h : ev ∈ (syncIter o c appID callIdx hdrNumber cursor
      (.newBlock blk)).1) :
    ev = .daBlockProcessed blk.header.number ∨
      ∃ blks, FromAvail c blk appID callIdx = .ok blks ∧
        ev ∈ processEdgeBlocks o blks := by
  simp only [syncIter] at h
  cases hFA : FromAvail c blk appID callIdx with
  | error e =>
    rw [hFA] at h
    by_cases he : e = FromAvailErr.noExtrinsicFound
    · simp [he] at h
      exact Or.inl h
    · simp [he] at h
  | ok blks =>
    rw [hFA] at h
    simp only [List.mem_append, List.mem_cons, List.not_mem_nil,
      or_false] at h
    rcases h with h | h
    · exact Or.inr ⟨blks, rfl, h⟩
    · exact Or.inl h

/-- Claim C1: in `syncNode`'s main loop, a settlement block extracted from
a DA block is committed (`WriteBlock`) only if the fraud gate reported it
not a fraud-proof block and the validator's `Check` returned no error; a
block flagged by the fraud gate is never passed to the validator and never
committed, for any validator behavior; a block failing validation is never
committed, regardless of the fraud-gate outcome. -/
theorem syncNode_commit_requires_fraud_gate_and_validator (o : SyncOracles)
    (c : Codecs) (appID : Int) (callIdx : CallIndex)
    (hdrNumber cursor : Nat) (blk : SignedBlock) (b : EdgeBlock) :
    (SyncEvent.blockWritten b ∈ (syncIter o c appID callIdx hdrNumber
        cursor (.newBlock blk)).1 →
      o.isFraudProofBlock b = false ∧ o.validatorCheck b = none) ∧
    (o.isFraudProofBlock b = true →
      SyncEvent.validatorChecked b ∉ (syncIter o c appID callIdx hdrNumber
          cursor (.newBlock blk)).1 ∧
        SyncEvent.blockWritten b ∉ (syncIter o c appID callIdx hdrNumber
          cursor (.newBlock blk)).1) ∧
    (∀ e, o.validatorCheck b = some e →
      SyncEvent.blockWritten b ∉ (syncIter o c appID callIdx hdrNumber
        cursor (.newBlock blk)).1) := by
  have hw : SyncEvent.blockWritten b ∈ (syncIter o c appID callIdx
      hdrNumber cursor (.newBlock blk)).1 →
      o.isFraudProofBlock b = false ∧ o.validatorCheck b = none := by
    intro h
    rcases mem_syncIter_newBlock o c appID callIdx hdrNumber cursor blk _ h
      with h | ⟨blks, _, h⟩
    · exact absurd h (by simp)
    · obtain ⟨x, _, hmem⟩ := (mem_processEdgeBlocks o _ blks).1 h
      exact blockWritten_mem_processEdgeBlock o b x hmem
  refine ⟨hw, ?_, ?_⟩
  · intro hf
    constructor
    · intro h
      rcases mem_syncIter_newBlock o c appID callIdx hdrNumber cursor blk _
        h with h | ⟨blks, _, h⟩
      · exact absurd h (by simp)
      · obtain ⟨x, _, hmem⟩ := (mem_processEdgeBlocks o _ blks).1 h
        have := validatorChecked_mem_processEdgeBlock o b x hmem
        rw [hf] at this
        exact Bool.true_eq_false ▸ absurd this (by simp)
    · intro h
      have := (hw h).1
      rw [hf] at this
      exact absurd this (by simp)
  · intro e he h
    have := (hw h).2
    rw [he] at this
    exact absurd this (by simp)

/-- Witness for C1: processing the fixture DA block embedding a
fraud-flagged block (13), an invalid block (21) and a good block (5):
the good block's commit implies it passed both gates; the fraud-flagged
block generates neither a validator call nor a commit; the invalid block
is never committed. -/
theorem syncNode_commit_requires_fraud_gate_and_validator_witness :
    (demoOracles.isFraudProofBlock ⟨⟨5, 0, 0⟩, []⟩ = false ∧
      demoOracles.validatorCheck ⟨⟨5, 0, 0⟩, []⟩ = none) ∧
    (SyncEvent.validatorChecked ⟨⟨13, 0, 0⟩, []⟩ ∉
        (syncIter demoOracles demoCodecs 1 demoCallIdx 99 3
          (.newBlock demoBlockFiltered)).1 ∧
      SyncEvent.blockWritten ⟨⟨13, 0, 0⟩, []⟩ ∉
        (syncIter demoOracles demoCodecs 1 demoCallIdx 99 3
          (.newBlock demoBlockFiltered)).1) ∧
    SyncEvent.blockWritten ⟨⟨21, 0, 0⟩, []⟩ ∉
      (syncIter demoOracles demoCodecs 1 demoCallIdx 99 3
        (.newBlock demoBlockFiltered)).1 := by
  refine ⟨?_, ?_, ?_⟩
  · exact (syncNode_commit_requires_fraud_gate_and_validator demoOracles
      demoCodecs 1 demoCallIdx 99 3 demoBlockFiltered ⟨⟨5, 0, 0⟩, []⟩).1
      (by decide)
  · exact (syncNode_commit_requires_fraud_gate_and_validator demoOracles
      demoCodecs 1 demoCallIdx 99 3 demoBlockFiltered
      ⟨⟨13, 0, 0⟩, []⟩).2.1 (by decide)
  · exact (syncNode_commit_requires_fraud_gate_and_validator demoOracles
      demoCodecs 1 demoCallIdx 99 3 demoBlockFiltered
      ⟨⟨21, 0, 0⟩, []⟩).2.2 9 (by decide)

/-- Claim C9: on the shutdown signal, the loop iteration makes exactly one
unstake attempt, exits the loop (returning with a nil error), processes no
DA blocks and commits nothing, and logs an unstake failure exactly when
the attempt errors — both when the attempt succeeds and when it fails. -/
theorem syncNode_shutdown_unstakes_once_and_exits (o : SyncOracles)
    (c : Codecs) (appID : Int) (callIdx : CallIndex)
    (hdrNumber cursor : Nat) :
    (syncIter o c appID callIdx hdrNumber cursor .shutdown).1.count
        .unstakeAttempted = 1 ∧
    (∃ r, (syncIter o c appID callIdx hdrNumber cursor .shutdown).2 =
      .exitLoop r) ∧
    (∀ n, SyncEvent.daBlockProcessed n ∉
      (syncIter o c appID callIdx hdrNumber cursor .shutdown).1) ∧
    (∀ bb, SyncEvent.blockWritten bb ∉
      (syncIter o c appID callIdx hdrNumber cursor .shutdown).1) ∧
    (SyncEvent.unstakeFailureLogged ∈
        (syncIter o c appID callIdx hdrNumber cursor .shutdown).1 ↔
      o.unStakeErr ≠ none) := by
  cases hu : o.unStakeErr with
  | none =>
    refine ⟨by simp [syncIter, hu], ⟨0, by simp [syncIter, hu]⟩, ?_, ?_, ?_⟩
    · intro n h
      simp [syncIter, hu] at h
    · intro bb h
      simp [syncIter, hu] at h
    · simp [syncIter, hu]
  | some e =>
    refine ⟨by simp [syncIter, hu], ⟨cursor, by simp [syncIter, hu]⟩, ?_,
      ?_, ?_⟩
    · intro n h
      simp [syncIter, hu] at h
    · intro bb h
      simp [syncIter, hu] at h
    · simp [syncIter, hu]

/-- Witness for C9 (its only hypotheses are the negated memberships and
the iff): concrete evaluation of the shutdown iteration under a failing
and a succeeding unstake attempt, both applied through the theorem. -/
theorem syncNode_shutdown_unstakes_once_and_exits_witness :
    (syncIter demoOracles demoCodecs 1 demoCallIdx 99 3 .shutdown).1.count
        .unstakeAttempted = 1 ∧
    (syncIter demoOraclesOk demoCodecs 1 demoCallIdx 99 3 .shutdown).2 =
      .exitLoop 0 ∧
    SyncEvent.unstakeFailureLogged ∈
      (syncIter demoOracles demoCodecs 1 demoCallIdx 99 3 .shutdown).1 := by
  refine ⟨(syncNode_shutdown_unstakes_once_and_exits demoOracles demoCodecs
    1 demoCallIdx 99 3).1, by decide, ?_⟩
  exact (syncNode_shutdown_unstakes_once_and_exits demoOracles demoCodecs 1
    demoCallIdx 99 3).2.2.2.2.mpr (by decide)

/-- Claim C10: when fetching the DA chain's latest header fails,
`syncNode` logs the failure and returns `(0, nil)`: the RPC error is
swallowed (the returned error component is nil) and `.earlyReturn` is
produced before the block stream is opened, so no DA block is processed in
that call. -/
theorem syncNode_latest_header_failure_swallowed
    (availNextBlockNumber : Nat) (e : Nat) (f : Except Nat CallIndex) :
    syncNodeStart availNextBlockNumber (.error e) f =
      .earlyReturn 0 none := rfl

/-- Counterexample to claim C6 as stated: after a successful staking
attempt through the transaction pool, the `ensureStaked` goroutine of a
sequencer — and likewise of a watchtower — returns: the loop terminates
instead of re-observing the "already staked" status on a next
iteration. -/
theorem ensureStaked_pool_success_terminates_loop :
    ensureStakedIter .sequencer (.ok false) (.ok false) none (true, none) =
        .stakeAttemptTerminate none ∧
      ensureStakedIter .watchTower (.ok false) (.ok false) none
          (true, none) = .stakeAttemptTerminate none :=
  ⟨rfl, rfl⟩

/-- Claim C6 amended: what follows a staking attempt depends on the role.
The bootstrap sequencer (direct-block path) always continues looping
after its attempt, and any role observing "already staked" re-enters the
passive 3-second health-check retry; but for the sequencer and watchtower
(pool path) a successful attempt makes the goroutine return — the loop
terminates — while a failed pool attempt continues looping. -/
theorem ensureStaked_loop_continuation_by_role (sd : Option Nat)
    (sp : Bool × Option Nat) :
    (ensureStakedIter .bootstrapSequencer (.ok false) (.ok false) sd sp =
      .stakeAttemptContinue sd) ∧
    (sp.1 = true → ∀ role, role ≠ .bootstrapSequencer →
      ensureStakedIter role (.ok false) (.ok false) sd sp =
        .stakeAttemptTerminate sp.2) ∧
    (sp.1 = false → ∀ role, role ≠ .bootstrapSequencer →
      ensureStakedIter role (.ok false) (.ok false) sd sp =
        .stakeAttemptContinue sp.2) ∧
    (∀ role, ensureStakedIter role (.ok false) (.ok true) sd sp =
      .retryAfter 3) := by
  refine ⟨rfl, ?_, ?_, ?_⟩
  · intro hsp role hrole
    cases role with
    | bootstrapSequencer => exact absurd rfl hrole
    | sequencer => simp [ensureStakedIter, hsp]
    | watchTower => simp [ensureStakedIter, hsp]
  · intro hsp role hrole
    cases role with
    | bootstrapSequencer => exact absurd rfl hrole
    | sequencer => simp [ensureStakedIter, hsp]
    | watchTower => simp [ensureStakedIter, hsp]
  · intro role
    cases role <;> rfl

/-- Witness for the amended C6: a bootstrap sequencer's attempt continues
the loop; a watchtower's successful pool attempt terminates it; a
sequencer's failed pool attempt continues it; an already-staked sequencer
re-enters the passive retry. -/
theorem ensureStaked_loop_continuation_by_role_witness :
    ensureStakedIter .bootstrapSequencer (.ok false) (.ok false) (some 5)
        (false, some 4) = .stakeAttemptContinue (some 5) ∧
    ensureStakedIter .watchTower (.ok false) (.ok false) (some 5)
        (true, none) = .stakeAttemptTerminate none ∧
    ensureStakedIter .sequencer (.ok false) (.ok false) (some 5)
        (false, some 4) = .stakeAttemptContinue (some 4) ∧
    ensureStakedIter .sequencer (.ok false) (.ok true) (some 5)
        (false, some 4) = .retryAfter 3 :=
  ⟨(ensureStaked_loop_continuation_by_role (some 5) (false, some 4)).1,
    (ensureStaked_loop_continuation_by_role (some 5) (true, none)).2.1
      (by decide) .watchTower (by decide),
    (ensureStaked_loop_continuation_by_role (some 5) (false, some 4)).2.2.1
      (by decide) .sequencer (by decide),
    (ensureStaked_loop_continuation_by_role (some 5) (false, some 4)).2.2.2
      .sequencer⟩

/-- One-step unfolding of the submission retry loop. -/
theorem stakeRetryGoF_succ (addTx : Nat → Option Nat) (fuel retries : Nat)
    (lastErr : Option Nat) :
    stakeRetryGoF addTx (fuel + 1) retries lastErr =
      match addTx retries with
      | some e =>
        (PoolEvent.addTxAttempt retries :: .sleepSeconds 2 ::
            (stakeRetryGoF addTx fuel (retries + 1) (some e)).1,
          (stakeRetryGoF addTx fuel (retries + 1) (some e)).2)
      | none => ([.addTxAttempt retries], none) := rfl

/-- When every remaining submission fails, the retry loop uses all its
remaining iterations, sleeping 2 seconds after each failed attempt, and
ends carrying the last attempt's error. -/
theorem stakeRetryGoF_all_fail (addTx : Nat → Option Nat) (f : Nat → Nat) :
    ∀ fuel retries lastErr, 0 < fuel →
    (∀ i, retries ≤ i → i < retries + fuel → addTx i = some (f i)) →
    stakeRetryGoF addTx fuel retries lastErr =
      (((List.range' retries fuel).map
          (fun i => [PoolEvent.addTxAttempt i, .sleepSeconds 2])).flatten,
        some (f (retries + fuel - 1))) := by
  intro fuel
  induction fuel with
  | zero =>
    intro retries lastErr h _
    exact absurd h (lt_irrefl 0)
  | succ n ih =>
    intro retries lastErr hpos hall
    have h0 : addTx retries = some (f retries) :=
      hall retries le_rfl (by omega)
    cases n with
    | zero =>
      simp only [stakeRetryGoF_succ, h0, stakeRetryGoF, List.range'_one]
      simp
    | succ m =>
      have hrec := ih (retries + 1) (some (f retries)) (by omega)
        (fun i h1 h2 => hall i (by omega) (by omega))
      have harith : retries + 1 + (m + 1) - 1 = retries + (m + 1 + 1) - 1 :=
        by omega
      rw [stakeRetryGoF_succ, h0]
      simp only [hrec]
      conv_rhs => rw [List.range'_succ]
      simp [harith]

/-- A first successful submission after `j` failures stops the loop right
there with a nil error. -/
theorem stakeRetryGoF_first_success (addTx : Nat → Option Nat)
    (f : Nat → Nat) :
    ∀ j fuel retries lastErr, j < fuel →
    (∀ i, retries ≤ i → i < retries + j → addTx i = some (f i)) →
    addTx (retries + j) = none →
    stakeRetryGoF addTx fuel retries lastErr =
      (((List.range' retries j).map
          (fun i => [PoolEvent.addTxAttempt i, .sleepSeconds 2])).flatten ++
          [.addTxAttempt (retries + j)],
        none) := by
  intro j
  induction j with
  | zero =>
    intro fuel retries lastErr hlt hall hsucc
    cases fuel with
    | zero => exact absurd hlt (lt_irrefl 0)
    | succ n =>
      simp only [Nat.add_zero] at hsucc
      simp [stakeRetryGoF_succ, hsucc]
  | succ m ih =>
    intro fuel retries lastErr hlt hall hsucc
    cases fuel with
    | zero => exact absurd hlt (Nat.not_lt_zero _)
    | succ n =>
      have h0 : addTx retries = some (f retries) :=
        hall retries le_rfl (by omega)
      have harith : retries + 1 + m = retries + (m + 1) := by omega
      have hrec := ih n (retries + 1) (some (f retries)) (by omega)
        (fun i h1 h2 => hall i (by omega) (by omega))
        (by rw [harith]; exact hsucc)
      rw [stakeRetryGoF_succ, h0]
      simp only [hrec]
      conv_rhs => rw [List.range'_succ]
      simp [harith]

/-- The retry loop never makes more `AddTx` attempts than it has
remaining iterations. -/
theorem attemptTotal_stakeRetryGoF (addTx : Nat → Option Nat) :
    ∀ fuel retries lastErr,
    attemptTotal (stakeRetryGoF addTx fuel retries lastErr).1 ≤ fuel := by
  intro fuel
  induction fuel with
  | zero =>
    intro retries lastErr
    simp [stakeRetryGoF, attemptTotal]
  | succ n ih =>
    intro retries lastErr
    cases h0 : addTx retries with
    | some e =>
      have hih := ih (retries + 1) (some e)
      rw [stakeRetryGoF_succ, h0]
      simp [attemptTotal, isAddTxAttempt] at hih ⊢
      omega
    | none =>
      rw [stakeRetryGoF_succ, h0]
      simp [attemptTotal, isAddTxAttempt]

/-- Claim C7: in the pool staking path, when every transaction-pool
submission fails, the retry loop makes exactly 10 `AddTx` attempts
(indices 0 through 9) with a 2-second sleep after each failed attempt,
and `stakeParticipantThroughTxPool` then returns failure with the last
submission error (attempt 9's); the number of attempts never exceeds the
bound of 10 for any pool behavior (no indefinite retry), and a first
successful submission at attempt k stops the retry loop there with a nil
submission error. -/
theorem stakePool_submission_retry_bound (addTx : Nat → Option Nat)
    (f : Nat → Nat) (k : Nat) (pollResults : List (Except Nat Bool)) :
    ((∀ i, i < 10 → addTx i = some (f i)) →
      stakeRetryLoop addTx =
        (((List.range' 0 10).map
            (fun i => [PoolEvent.addTxAttempt i, .sleepSeconds 2])).flatten,
          some (f 9)) ∧
      stakeParticipantThroughTxPool addTx pollResults =
        some (false, some (f 9))) ∧
    (k < 10 → (∀ i, i < k → addTx i = some (f i)) → addTx k = none →
      stakeRetryLoop addTx =
        (((List.range' 0 k).map
            (fun i => [PoolEvent.addTxAttempt i, .sleepSeconds 2])).flatten
            ++ [.addTxAttempt k],
          none)) ∧
    attemptTotal (stakeRetryLoop addTx).1 ≤ 10 := by
  refine ⟨?_, ?_, attemptTotal_stakeRetryGoF addTx 10 0 none⟩
  · intro hall
    have h := stakeRetryGoF_all_fail addTx f 10 0 none (by omega)
      (fun i h1 h2 => hall i (by omega))
    rw [stakeRetryLoop]
    refine ⟨by simpa using h, ?_⟩
    have h2 : (stakeRetryLoop addTx).2 = some (f 9) := by
      rw [stakeRetryLoop, h]
    simp [stakeParticipantThroughTxPool, h2]
  · intro hk hall hsucc
    have h := stakeRetryGoF_first_success addTx f k 10 0 none hk
      (fun i h1 h2 => hall i (by omega)) (by simpa using hsucc)
    rw [stakeRetryLoop]
    simpa using h

/-- Witness for C7: with a pool rejecting every submission (attempt i
fails with error 100 + i) the loop makes attempts 0..9 and the function
fails with error 109; with a pool accepting the fourth submission the
loop stops after attempt 3 with a nil error. -/
theorem stakePool_submission_retry_bound_witness :
    (stakeRetryLoop demoAddTxFail =
      (((List.range' 0 10).map
          (fun i => [PoolEvent.addTxAttempt i, .sleepSeconds 2])).flatten,
        some 109) ∧
    stakeParticipantThroughTxPool demoAddTxFail [] =
      some (false, some 109)) ∧
    stakeRetryLoop demoAddTxLate =
      (((List.range' 0 3).map
          (fun i => [PoolEvent.addTxAttempt i, .sleepSeconds 2])).flatten ++
          [.addTxAttempt 3],
        none) := by
  refine ⟨?_, ?_⟩
  · exact (stakePool_submission_retry_bound demoAddTxFail
      (fun i => 100 + i) 0 []).1 (by decide)
  · exact (stakePool_submission_retry_bound demoAddTxLate
      (fun i => 100 + i) 3 []).2.1 (by decide) (by decide) (by decide)

/-- Counterexample to claim C8 as stated: the submission succeeds on the
first attempt, the first participant-status query of the post-submission
poll fails with error 7, and `stakeParticipantThroughTxPool` returns
`(false, error 7)` — the query error is surfaced to the caller instead of
being retried. -/
theorem stakePool_poll_error_surfaced_counterexample :
    stakeParticipantThroughTxPool (fun _ => none) [.error 7] =
      some (false, some 7) := rfl

/-- Participant-status answers on which the poll keeps looping are
consumed without producing a result. -/
theorem pollStakedGo_skip (pre rest : List (Except Nat Bool))
    (h : ∀ r ∈ pre, r = .ok false) :
    pollStakedGo (pre ++ rest) = pollStakedGo rest := by
  induction pre with
  | nil => rfl
  | cons r rs ih =>
    have hr := h r (List.mem_cons_self r rs)
    subst hr
    simp only [List.cons_append, pollStakedGo]
    exact ih (fun y hy => h y (List.mem_cons_of_mem _ hy))

/-- Claim C8 amended: in the post-submission poll, "not yet staked"
answers are retried, but a query error is not treated as transient: the
first error ends the poll and is surfaced to the caller as `(false, err)`;
absent errors, polling continues until the staked flag becomes true and
then returns `(true, nil)`. -/
theorem stakePool_poll_error_surfaced (pre rest : List (Except Nat Bool))
    (e : Nat) (addTx : Nat → Option Nat)
    (hpre : ∀ r ∈ pre, r = .ok false) :
    pollStakedGo (pre ++ .error e :: rest) = some (false, some e) ∧
    pollStakedGo (pre ++ .ok true :: rest) = some (true, none) ∧
    (addTx 0 = none →
      stakeParticipantThroughTxPool addTx (pre ++ .error e :: rest) =
        some (false, some e)) := by
  refine ⟨?_, ?_, ?_⟩
  · rw [pollStakedGo_skip pre _ hpre]
    rfl
  · rw [pollStakedGo_skip pre _ hpre]
    rfl
  · intro h0
    have h := stakeRetryGoF_first_success addTx (fun _ => 0) 0 10 0 none
      (by omega) (fun i h1 h2 => absurd h2 (by omega)) (by simpa using h0)
    have hloop : (stakeRetryLoop addTx).2 = none := by
      rw [stakeRetryLoop, h]
    simp only [stakeParticipantThroughTxPool, hloop]
    rw [pollStakedGo_skip pre _ hpre]
    rfl

/-- Witness for the amended C8: two not-yet-staked answers followed by a
failing query surface the error; followed by a staked answer they yield
success; through the full pool path with an immediately accepted
submission, the query error is likewise surfaced. -/
theorem stakePool_poll_error_surfaced_witness :
    pollStakedGo [.ok false, .ok false, .error 8] = some (false, some 8) ∧
    pollStakedGo [.ok false, .ok false, .ok true] = some (true, none) ∧
    stakeParticipantThroughTxPool (fun _ => none)
      [.ok false, .ok false, .error 8] = some (false, some 8) := by
  obtain ⟨h1, h2, h3⟩ := stakePool_poll_error_surfaced
    [.ok false, .ok false] [] 8 (fun _ => none) (by decide)
  exact ⟨h1, h2, h3 rfl⟩

end AvailSettlement
